import Mathlib

/-!
Verification development for the synthetic sales-data generator
(`sales/ml_data_generator.py`).

The Python source is shallowly embedded below.  Conventions used throughout:

* Python `Decimal` values and Python `float` literals (`1.5`, `0.7`, ...) are
  embedded as the rational numbers (`ℚ`) they denote in the source text.
* Python `float(...)` conversion of an exact value is modelled by `pyFloat`,
  the correctly rounded (round-half-to-even) binary64 approximation, whose
  value is returned as the exact rational the resulting double denotes.
* Randomness (`random.randint`, `random.uniform`, `random.choices`, ...) is
  made explicit: every random draw is a parameter (an oracle) of the embedded
  function, so the embedding is a deterministic function of the draws.
* Database effects are embedded as explicit state passing over a `DB` record;
  Django's `transaction.atomic` savepoint/rollback semantics are made
  explicit in the step functions.
-/

namespace SalesGen

/-- Python `int(x)` applied to a float/Decimal: truncation toward zero. -/
def pyTrunc (q : ℚ) : ℤ :=
  if 0 ≤ q then ⌊q⌋ else -⌊-q⌋

/-- Rounding half to even (the rounding used by Python `round` and by IEEE-754
binary64 conversion). -/
def roundHalfEven (q : ℚ) : ℤ :=
  let f : ℤ := ⌊q⌋
  let frac : ℚ := q - f
  if frac < 1/2 then f
  else if 1/2 < frac then f + 1
  else if f % 2 = 0 then f else f + 1

/-- Python `round(x, 2)`: round half to even at two decimal places. -/
def pyRound2 (q : ℚ) : ℚ :=
  (roundHalfEven (q * 100) : ℚ) / 100

/-- Python `float(x)` for an exact (Decimal/rational) `x` in the binary64
normal range: the correctly rounded (half-to-even) binary64 value, returned
as the exact rational that double denotes.  (Subnormal underflow and overflow,
which do not occur for the monetary magnitudes at hand, are not modelled.) -/
def pyFloat (q : ℚ) : ℚ :=
  if q = 0 then 0
  else
    let a : ℚ := |q|
    let e : ℤ := Int.log 2 a
    let m : ℤ := roundHalfEven (a * (2 : ℚ) ^ (52 - e))
    (if q < 0 then (-1 : ℚ) else 1) * (m : ℚ) / (2 : ℚ) ^ (52 - e)

/-- A rational is dyadic when some power of two clears its denominator.
Every binary64 value is dyadic. -/
def IsDyadic (q : ℚ) : Prop :=
  ∃ (m : ℤ) (k : ℕ), q * 2 ^ k = m

/-! ## DemandCurveModel (`_get_seasonal_multiplier`, `_get_trend_multiplier`,
`_get_weekday_multiplier`, `_generate_daily_sales_count`) -/

/-- Embeds `SalesDataGenerator._get_seasonal_multiplier`; `month` is
`date.month` (1–12). -/
def getSeasonalMultiplier (month : ℕ) : ℚ :=
  if month = 12 then 3/2
  else if month = 1 ∨ month = 2 then 7/10
  else if month = 7 ∨ month = 8 then 13/10
  else if month = 6 ∨ month = 11 then 6/5
  else 1

/-- Embeds `SalesDataGenerator._get_trend_multiplier`:
`days_from_start / total_days` then `1.0 + progress * 0.5`. -/
def getTrendMultiplier (daysFromStart totalDays : ℕ) : ℚ :=
  let progress : ℚ := (daysFromStart : ℚ) / (totalDays : ℚ)
  1 + progress * (1/2)

/-- Embeds `SalesDataGenerator._get_weekday_multiplier`; `weekday` is Python
`date.weekday()` (Monday = 0, ..., Saturday = 5, Sunday = 6). -/
def getWeekdayMultiplier (weekday : ℕ) : ℚ :=
  if weekday = 5 ∨ weekday = 6 then 13/10
  else if weekday = 4 then 11/10
  else 1

/-- Embeds `SalesDataGenerator._generate_daily_sales_count`.  The random draws
`base = random.randint(5, 15)` and `noise = random.uniform(0.8, 1.2)` are
oracle parameters; the date is given by its month, weekday, and day offset in
the window.  Note the source applies Python `int(...)` (truncation) to the
product, then `max(1, ...)`. -/
def generateDailySalesCount (base : ℕ) (month daysFromStart totalDays weekday : ℕ)
    (noise : ℚ) : ℕ :=
  let seasonal := getSeasonalMultiplier month
  let trend := getTrendMultiplier daysFromStart totalDays
  let wk := getWeekdayMultiplier weekday
  let salesCount : ℤ := pyTrunc ((base : ℚ) * seasonal * trend * wk * noise)
  (max 1 salesCount).toNat

/-- Modelled from the spec's words (for comparison with the source): the
daily count as the *claim* states it, with `round` in place of the source's
truncating `int(...)`. -/
def dailySalesCountSpecRound (base : ℕ) (month daysFromStart totalDays weekday : ℕ)
    (noise : ℚ) : ℕ :=
  let seasonal := getSeasonalMultiplier month
  let trend := getTrendMultiplier daysFromStart totalDays
  let wk := getWeekdayMultiplier weekday
  (max 1 (roundHalfEven ((base : ℚ) * seasonal * trend * wk * noise))).toNat

/-! ## StochasticBasketSampler (`_generate_order_items`) -/

/-- The view of a `Product` object that `_generate_order_items` reads: its
identity, its `price`, and the dynamically attached `_popularity` attribute
(absent on pre-existing products, whence `getattr(p, '_popularity', 0.5)`). -/
structure ProductObj where
  productId : ℕ
  price : ℚ
  popularity : Option ℚ
deriving DecidableEq

/-- The weight used for a product: `getattr(p, '_popularity', 0.5)`. -/
def popWeight (p : ProductObj) : ℚ :=
  p.popularity.getD (1/2)

/-- Running cumulative sums, as built by `itertools.accumulate` inside
`random.choices`. -/
def cumSums : ℚ → List ℚ → List ℚ
  | _, [] => []
  | acc, w :: ws => (acc + w) :: cumSums (acc + w) ws

/-- Embeds CPython `random.choices(population, weights=..., k=...)` for a
population given by its length (the result is the list of chosen indices).
`u i` is the i-th `random.random()` draw in `[0, 1)`.  When the weight total
is not positive CPython raises
`ValueError: Total of weights must be greater than zero`; there is no uniform
fallback in that case.  Index selection is
`bisect.bisect(cum_weights, random() * total, 0, len(population) - 1)`;
since the weights are non-negative the cumulative list is sorted, and
`bisect_right` on a sorted list returns the number of entries `≤ x` (here
additionally clamped by the `hi` bound `len(population) - 1`). -/
def randomChoices (popLen : ℕ) (weights : List ℚ) (k : ℕ) (u : ℕ → ℚ) :
    Except String (List ℕ) :=
  let cum := cumSums 0 weights
  let total : ℚ := (cum.getLast?).getD 0
  if total ≤ 0 then
    .error ("Total of weights must be greater than zero")
  else
    .ok ((List.range k).map fun i =>
      min ((cum.filter (fun c => c ≤ u i * total)).length) (popLen - 1))

/-- One sampled line candidate: the dict
`{'product': ..., 'quantity': ..., 'price': product.price}`. -/
structure ItemData where
  productId : ℕ
  quantity : ℕ
  price : ℚ
deriving DecidableEq

/-- Default object for list indexing (unreachable: `bisect` is clamped to
`len - 1` and an empty population has weight total 0, which errors first). -/
def dfltProduct : ProductObj := ⟨0, 0, none⟩

/-- Embeds `SalesDataGenerator._generate_order_items`.  Oracle draws:
`uSize` for the basket-size `random.choices`, `uPick i` for the i-th product
pick, `uQty i` for the i-th quantity draw. -/
def generateOrderItems (products : List ProductObj) (uSize : ℚ)
    (uPick uQty : ℕ → ℚ) : Except String (List ItemData) :=
  match randomChoices 4 [1/2, 3/10, 3/20, 1/20] 1 (fun _ => uSize) with
  | .error e => .error e
  | .ok sizeIdx =>
    let numItems := sizeIdx.headD 0 + 1
    match randomChoices products.length (products.map popWeight) numItems uPick with
    | .error e => .error e
    | .ok picks =>
      (picks.enum.mapM fun pr =>
        match randomChoices 3 [7/10, 1/5, 1/10] 1 (fun _ => uQty pr.1) with
        | .error e => .error e
        | .ok qIdx =>
          let p := products.getD pr.2 dfltProduct
          .ok (⟨p.productId, qIdx.headD 0 + 1, p.price⟩ : ItemData))

/-! ## MetricBackfill (`_ensure_product_metrics`) -/

/-- The fields of a `Product` row read or written by the generator, together
with the transient `_popularity` attribute.  `rating` and
`energy_kwh_per_year` are nullable columns (migration `0005_add_metrics`),
hence `Option`. -/
structure ProductState where
  productId : ℕ
  name : String
  price : ℚ
  stock : ℤ
  categoryName : Option String
  brand : Option ℕ
  warranty : Option ℕ
  image : Option String
  description : String
  rating : Option ℚ
  energy : Option ℚ
  popularity : Option ℚ
deriving DecidableEq

/-- Random draws consumed by `_ensure_product_metrics`. -/
structure MetricOracle where
  ratingNoise : ℚ
  energyDraw : ℕ → ℕ → ℕ
  cocinaZero : Bool

/-- Substring test, modelling Python `pat in s`. -/
def strContains (s pat : String) : Bool :=
  (List.range (s.length + 1)).any fun i => pat.toList.isPrefixOf (s.toList.drop i)

/-- The category-dependent energy draw of `_ensure_product_metrics` (the
`cat = product.category.name.lower() if ... else ''` chain). -/
def energyForCategory (o : MetricOracle) (categoryName : Option String) : ℕ :=
  let cat := (categoryName.getD ("")).toLower
  if strContains cat ("heladera") then o.energyDraw 250 550
  else if strContains cat ("lavarropas") then o.energyDraw 50 200
  else if strContains cat ("microondas") then o.energyDraw 50 120
  else if strContains cat ("televisor") then o.energyDraw 30 200
  else if strContains cat ("aire") then o.energyDraw 500 2000
  else if strContains cat ("cocina") then
    (if o.cocinaZero then 0 else o.energyDraw 200 800)
  else o.energyDraw 20 500

/-- Embeds `SalesDataGenerator._ensure_product_metrics`.  Returns the updated
product object together with the `updated` flag (whether `product.save()` was
invoked).  The source's `try/except` guards never fire under this pure model
(all embedded operations are total), and a failing `product.save()` is
swallowed there without changing the computed field values. -/
def ensureProductMetrics (o : MetricOracle) (p : ProductState) : ProductState × Bool :=
  let step1 : ProductState × Bool :=
    if p.rating = none then
      let base : ℚ :=
        match p.popularity with
        | none => 7/2 + min (3/2) (p.price / 2000)
        | some pop => 7/2 + (pop - 1/2) * 2
      let ratingVal : ℚ := max 0 (min 5 (pyRound2 (base + o.ratingNoise)))
      ({ p with rating := some ratingVal }, true)
    else (p, false)
  let p1 := step1.1
  let step2 : ProductState × Bool :=
    if p1.energy = none then
      ({ p1 with energy := some ((energyForCategory o p1.categoryName : ℕ) : ℚ) }, true)
    else (p1, false)
  (step2.1, step1.2 || step2.2)

/-! ## TransactionalBatchWriter (`generate_demo_data`)

The day loop is embedded with its randomness and its environment-failure
possibilities made explicit: each simulated day is a list of `OrderSpec`
values, one per iteration of the inner `for _ in range(daily_sales)` loop,
recording the oracle's draws (customer, basket, synthesized timestamp) and
which persistence calls raise.

Fault model, read off the source:
* `Order.objects.create` runs inside `with transaction.atomic():` and its
  exceptions are caught (`except DatabaseError` / `except Exception` →
  `continue`): `headerFails`.
* the subsequent `Order.objects.filter(pk=...).update(created_at=...,
  updated_at=...)` is *not* inside any `try`: `updateFails` makes the whole
  run raise, and since `generate_demo_data` is decorated
  `@transaction.atomic`, everything is rolled back.
* `OrderItem.objects.create` runs inside its own `with transaction.atomic():`
  and its exceptions are caught (`continue`): `createFails` on the item.
* the stock `p.save()` sits in an inner `try/except: pass`:
  `stockSaveFails`. -/

/-- One line candidate as sampled by `_generate_order_items`, plus the fault
switches for its persistence. -/
structure ItemSpec where
  productId : ℕ
  quantity : ℕ
  price : ℚ
  createFails : Bool
  stockSaveFails : Bool
deriving DecidableEq

/-- One iteration of the per-day order loop: the oracle's draws (customer,
basket, the synthesized `order_date`) plus the fault switches. -/
structure OrderSpec where
  customerId : ℕ
  items : List ItemSpec
  orderDate : ℕ
  headerFails : Bool
  updateFails : Bool
deriving DecidableEq

/-- A persisted `Order` row (fields touched by the generator). -/
structure OrderRec where
  pk : ℕ
  customerId : ℕ
  totalPrice : ℚ
  status : String
  createdAt : ℕ
deriving DecidableEq

/-- A persisted `OrderItem` row. -/
structure ItemRec where
  orderPk : ℕ
  productId : ℕ
  quantity : ℕ
  price : ℚ
deriving DecidableEq

/-- Product stocks, keyed by product identity. -/
abbrev StockMap := List (ℕ × ℤ)

def lookupStock : StockMap → ℕ → Option ℤ
  | [], _ => none
  | e :: m, pid => if e.1 = pid then some e.2 else lookupStock m pid

def setStock : StockMap → ℕ → ℤ → StockMap
  | [], _, _ => []
  | e :: m, pid, v => (if e.1 = pid then (e.1, v) else e) :: setStock m pid v

/-- The persisted database state. -/
structure DB where
  orders : List OrderRec
  items : List ItemRec
  stock : StockMap
  nextPk : ℕ
deriving DecidableEq

/-- Generator state: the database plus the in-memory `Product` objects'
`stock` attributes (which can diverge from the database when `p.save()`
fails) and the running counters `total_orders` / `total_revenue`. -/
structure GenSt where
  db : DB
  memStock : StockMap
  totalOrders : ℕ
  totalRevenue : ℚ
deriving DecidableEq

/-- Computes `order_total = sum(Decimal(str(item['quantity'])) * item['price']
for item in items_data)` — over the whole sampled basket. -/
def orderTotal (items : List ItemSpec) : ℚ :=
  (items.map fun it => (it.quantity : ℚ) * it.price).sum

/-- Embeds the body of the `for item_data in items_data:` loop: the
`OrderItem.objects.create` under its savepoint (exception caught, loop
continues) and the best-effort stock decrement guarded by
`hasattr(p, 'stock') and p.stock >= item_data['quantity']`. -/
def processItem (orderPk : ℕ) (st : GenSt) (it : ItemSpec) : GenSt :=
  if it.createFails then st
  else
    let st1 : GenSt :=
      { st with db := { st.db with
          items := st.db.items ++ [⟨orderPk, it.productId, it.quantity, it.price⟩] } }
    match lookupStock st1.memStock it.productId with
    | none => st1
    | some s =>
      if (it.quantity : ℤ) ≤ s then
        let newS : ℤ := max 0 (s - it.quantity)
        let st2 := { st1 with memStock := setStock st1.memStock it.productId newS }
        if it.stockSaveFails then st2
        else { st2 with db := { st2.db with stock := setStock st2.db.stock it.productId newS } }
      else st1

/-- Embeds one iteration of the inner order loop of `generate_demo_data`.
On `headerFails` the caught exception skips to the next iteration
(`continue`); on `updateFails` the uncaught exception aborts the run. -/
def processOrder (st : GenSt) (o : OrderSpec) : Except String GenSt :=
  let total := orderTotal o.items
  if o.headerFails then .ok st
  else
    let pk := st.db.nextPk
    -- `auto_now_add` stamps creation with the wall clock (placeholder 0 here;
    -- it is observable only until the immediately following update).
    let st1 : GenSt :=
      { st with db := { st.db with
          orders := st.db.orders ++ [⟨pk, o.customerId, total, "COMPLETED", 0⟩],
          nextPk := pk + 1 } }
    if o.updateFails then .error ("ERROR updating order timestamps")
    else
      let st2 : GenSt :=
        { st1 with db := { st1.db with
            orders := st1.db.orders.map fun r =>
              if r.pk = pk then { r with createdAt := o.orderDate } else r } }
      let st3 := o.items.foldl (processItem pk) st2
      .ok { st3 with totalOrders := st3.totalOrders + 1,
                     totalRevenue := st3.totalRevenue + total }

/-- The pure no-abort semantics of one order iteration (identical to
`processOrder` except that the uncaught-update-failure branch is absent);
`processOrder` agrees with it whenever the order does not abort. -/
def processOrderOk (st : GenSt) (o : OrderSpec) : GenSt :=
  let total := orderTotal o.items
  if o.headerFails then st
  else
    let pk := st.db.nextPk
    let st1 : GenSt :=
      { st with db := { st.db with
          orders := st.db.orders ++ [⟨pk, o.customerId, total, "COMPLETED", 0⟩],
          nextPk := pk + 1 } }
    let st2 : GenSt :=
      { st1 with db := { st1.db with
          orders := st1.db.orders.map fun r =>
            if r.pk = pk then { r with createdAt := o.orderDate } else r } }
    let st3 := o.items.foldl (processItem pk) st2
    { st3 with totalOrders := st3.totalOrders + 1,
               totalRevenue := st3.totalRevenue + total }

/-- One simulated day: the inner `for` loop over that day's orders. -/
def processDay (st : GenSt) (day : List OrderSpec) : Except String GenSt :=
  day.foldlM processOrder st

/-- The `while current_date <= self.end_date` loop. -/
def runDays (st : GenSt) (specs : List (List OrderSpec)) : Except String GenSt :=
  specs.foldlM processDay st

/-- Pure no-abort semantics of the whole loop. -/
def runDaysOk (st : GenSt) (specs : List (List OrderSpec)) : GenSt :=
  specs.foldl (fun s day => day.foldl processOrderOk s) st

/-- An order iteration aborts the run exactly when its header create succeeds
and the following (unprotected) timestamp update raises. -/
def orderAborts (o : OrderSpec) : Bool :=
  !o.headerFails && o.updateFails

def runAborts (specs : List (List OrderSpec)) : Bool :=
  specs.any fun day => day.any orderAborts

/-- The simulation window's calendar bounds, as used by
`strftime('%Y-%m-%d')` in the summary. -/
structure SimWindow where
  startY : ℕ
  startM : ℕ
  startD : ℕ
  endY : ℕ
  endM : ℕ
  endD : ℕ
deriving DecidableEq

def pad2 (n : ℕ) : String :=
  if n < 10 then ("0") ++ toString n else toString n

/-- Renders `strftime('%Y-%m-%d')` for an A.D. calendar date. -/
def formatISO (y m d : ℕ) : String :=
  toString y ++ "-" ++ pad2 m ++ "-" ++ pad2 d

/-- The summary dict returned by `generate_demo_data`.  `totalRevenue` holds
the exact rational value of the Python float `float(total_revenue)`. -/
structure Summary where
  totalOrders : ℕ
  totalRevenue : ℚ
  startDate : String
  endDate : String
  productsCount : ℕ
  customersCount : ℕ
deriving DecidableEq

/-- Embeds `SalesDataGenerator.generate_demo_data`.  The method is decorated
`@transaction.atomic`: if an exception escapes the body the whole database
transaction is rolled back (result `(db0, .error e)`), otherwise the final
state commits.  `productsCount`/`customersCount` are the sizes of the pools
returned by the bootstrap collaborators (`_create_demo_products_if_needed`,
`_create_demo_customers_if_needed`); the in-memory product stocks are loaded
from the database at the start of the run. -/
def generateDemoData (clearExisting : Bool) (w : SimWindow) (db0 : DB)
    (productsCount customersCount : ℕ) (specs : List (List OrderSpec)) :
    DB × Except String Summary :=
  let dbStart := if clearExisting then { db0 with orders := [], items := [] } else db0
  let st0 : GenSt := ⟨dbStart, dbStart.stock, 0, 0⟩
  match runDays st0 specs with
  | .error e => (db0, .error e)
  | .ok st =>
    (st.db, .ok
      { totalOrders := st.totalOrders
        totalRevenue := pyFloat st.totalRevenue
        startDate := formatISO w.startY w.startM w.startD
        endDate := formatISO w.endY w.endM w.endD
        productsCount := productsCount
        customersCount := customersCount })

/-- The database an empty deployment starts from (given initial stocks). -/
def emptyDB (stock0 : StockMap) : DB :=
  ⟨[], [], stock0, 0⟩

/-- Exact decimal sum of the extensions of the line items persisted for a
given order. -/
def itemsSumFor (items : List ItemRec) (pk : ℕ) : ℚ :=
  ((items.filter fun it => it.orderPk = pk).map fun it => (it.quantity : ℚ) * it.price).sum

/-- Orders whose header create succeeds (one persisted `Order` row each, when
the run does not abort). -/
def countGoodOrders (specs : List (List OrderSpec)) : ℕ :=
  ((specs.flatten).filter fun o => !o.headerFails).length

/-- The quantities of one order's successfully persisted line items that
reference a given product, in order. -/
def soldOfItems (l : List ItemSpec) (pid : ℕ) : List ℕ :=
  (l.filter fun it => !it.createFails && it.productId = pid).map fun it => it.quantity

/-- The quantities of the successfully persisted line items referencing a
given product, in processing order. -/
def soldQuantities (specs : List (List OrderSpec)) (pid : ℕ) : List ℕ :=
  ((specs.flatten).filter fun o => !o.headerFails).flatMap fun o =>
    soldOfItems o.items pid

/-- The source's stock update for one persisted line:
decrement only when `p.stock >= quantity` (the `max(0, ...)` is then
vacuous), otherwise leave the stock untouched. -/
def stockStep (s : ℤ) (q : ℕ) : ℤ :=
  if (q : ℤ) ≤ s then s - q else s

/-- The `OrderItem` rows created for one order from its sampled basket. -/
def itemRecsOf (pk : ℕ) (l : List ItemSpec) : List ItemRec :=
  (l.filter fun it => !it.createFails).map fun it => ⟨pk, it.productId, it.quantity, it.price⟩

/-- The `Order` row created for one order spec (timestamp already overridden
to the synthesized `order_date`). -/
def headerRec (pk : ℕ) (o : OrderSpec) : OrderRec :=
  ⟨pk, o.customerId, orderTotal o.items, "COMPLETED", o.orderDate⟩

/-! ## Concrete inputs used by witnesses and counterexamples -/

/-- A 730-day window (dates only feed `strftime`). -/
def w0 : SimWindow := ⟨2023, 10, 13, 2025, 10, 12⟩

/-- A concrete metric oracle (noise 0, lower-bound integer draws). -/
def mOracle0 : MetricOracle := ⟨0, fun a _ => a, false⟩

/-- A product whose rating and energy are already set (for C7). -/
def productRatedC7 : ProductState :=
  ⟨1, "TV demo", 800, 20, some ("Televisores"), none, none, none, "demo",
   some 4, some 120, none⟩

/-- A product whose rating and energy are already set (for C10). -/
def productRatedC10 : ProductState :=
  ⟨2, "Microondas demo", 180, 15, some ("Microondas"), some 1, some 1,
   some ("img.png"), "demo", some (7/2), some 90, some (17/20)⟩

/-- A one-product catalog whose only popularity weight is zero. -/
def zeroWeightProducts : List ProductObj := [⟨1, 10, some 0⟩]

/-- A two-product catalog whose popularity weights are all zero. -/
def zeroWeightPair : List ProductObj := [⟨2, 5, some 0⟩, ⟨3, 7, some 0⟩]

/-- Invariant tying every persisted order's stored total to its persisted
line items (plus primary-key freshness bookkeeping). -/
def C2Inv (st : GenSt) : Prop :=
  (∀ r ∈ st.db.orders, r.pk < st.db.nextPk) ∧
  (∀ it ∈ st.db.items, it.orderPk < st.db.nextPk) ∧
  (∀ r ∈ st.db.orders, r.totalPrice = itemsSumFor st.db.items r.pk)

/-- A run with one fully successful order and one order whose header create
fails (and is skipped). -/
def specsOkC1 : List (List OrderSpec) :=
  [[⟨0, [⟨1, 1, 5, false, false⟩], 9, false, false⟩],
   [⟨1, [], 10, true, false⟩]]

/-- A run with a single order whose uncaught timestamp update fails. -/
def specsAbortC1 : List (List OrderSpec) :=
  [[⟨0, [], 9, false, true⟩]]

/-- Day 1: a fully successful order; day 2: an order whose header create
succeeds but whose timestamp update raises (uncaught). -/
def specsCexC1 : List (List OrderSpec) :=
  [[⟨0, [⟨1, 1, 5, false, false⟩], 9, false, false⟩],
   [⟨1, [], 10, false, true⟩]]

/-- Day 1 of `specsCexC1` alone. -/
def specsDay1C1 : List (List OrderSpec) :=
  [[⟨0, [⟨1, 1, 5, false, false⟩], 9, false, false⟩]]

/-- One order with two sampled lines, the second of which fails to persist. -/
def specsCexC2 : List (List OrderSpec) :=
  [[⟨0, [⟨1, 1, 10, false, false⟩, ⟨2, 1, 7, true, false⟩], 9, false, false⟩]]

/-- A fully successful single-order run (C2 witness). -/
def specsOkC2 : List (List OrderSpec) :=
  [[⟨0, [⟨1, 2, 5, false, false⟩], 9, false, false⟩]]

/-- One persisted line of quantity 3 against a product stocked at 2. -/
def specsCexC3 : List (List OrderSpec) :=
  [[⟨0, [⟨1, 3, 4, false, false⟩], 9, false, false⟩]]

/-- Two persisted lines of quantities 2 and 1 against product 1 (C3 witness). -/
def specsOkC3 : List (List OrderSpec) :=
  [[⟨0, [⟨1, 2, 4, false, false⟩], 9, false, false⟩],
   [⟨1, [⟨1, 1, 4, false, false⟩], 10, false, false⟩]]

/-- A single sale of one unit at price 0.10 (C5). -/
def specsC5 : List (List OrderSpec) :=
  [[⟨0, [⟨1, 1, 1/10, false, false⟩], 9, false, false⟩]]

end SalesGen

/-! # Theorems -/

namespace SalesGen

theorem one_le_toNat_max_one (z : ℤ) : 1 ≤ (max 1 z).toNat := by
  have h1 : (1 : ℤ) ≤ max 1 z := le_max_left 1 z
  omega

theorem pyFloat_isDyadic (q : ℚ) : IsDyadic (pyFloat q) := by
  unfold pyFloat
  by_cases h0 : q = 0
  · refine ⟨0, 0, ?_⟩
    simp [h0]
  · simp only [if_neg h0]
    set e : ℤ := Int.log 2 |q| with he
    set m : ℤ := roundHalfEven (|q| * (2 : ℚ) ^ (52 - e)) with hm
    set s : ℤ := 52 - e with hs
    set sgn : ℚ := if q < 0 then (-1 : ℚ) else 1 with hsgn
    rcases le_or_lt 0 s with hpos | hneg
    · refine ⟨if q < 0 then -m else m, s.toNat, ?_⟩
      have hpow : (2 : ℚ) ^ s = (2 : ℚ) ^ (s.toNat) := by
        rw [← zpow_natCast, Int.toNat_of_nonneg hpos]
      have h2 : ((2 : ℚ) ^ (s.toNat)) ≠ 0 := by positivity
      rw [div_mul_eq_mul_div, hpow, mul_div_assoc, div_self h2, mul_one]
      by_cases hq : q < 0 <;> simp [hsgn, hq]
    · refine ⟨(if q < 0 then -m else m) * 2 ^ (-s).toNat, 0, ?_⟩
      have hpow : (2 : ℚ) ^ s = ((2 : ℚ) ^ ((-s).toNat))⁻¹ := by
        rw [← zpow_natCast (2 : ℚ) (-s).toNat, Int.toNat_of_nonneg (by omega : (0:ℤ) ≤ -s),
          zpow_neg, inv_inv]
      rw [hpow, div_eq_mul_inv, inv_inv]
      push_cast
      by_cases hq : q < 0 <;> simp [hsgn, hq]

/-- C8: the seasonal multiplier is exactly 1.5 in December, 0.7 in January
and February, 1.3 in July and August, 1.2 in June and November, and 1.0 in
every other month; the weekday multiplier is exactly 1.3 on Saturday (5) and
Sunday (6), 1.1 on Friday (4), and 1.0 on Monday–Thursday. -/
theorem seasonal_and_weekday_multiplier_tables :
    getSeasonalMultiplier 12 = 3/2 ∧
    getSeasonalMultiplier 1 = 7/10 ∧ getSeasonalMultiplier 2 = 7/10 ∧
    getSeasonalMultiplier 7 = 13/10 ∧ getSeasonalMultiplier 8 = 13/10 ∧
    getSeasonalMultiplier 6 = 6/5 ∧ getSeasonalMultiplier 11 = 6/5 ∧
    getSeasonalMultiplier 3 = 1 ∧ getSeasonalMultiplier 4 = 1 ∧
    getSeasonalMultiplier 5 = 1 ∧ getSeasonalMultiplier 9 = 1 ∧
    getSeasonalMultiplier 10 = 1 ∧
    getWeekdayMultiplier 5 = 13/10 ∧ getWeekdayMultiplier 6 = 13/10 ∧
    getWeekdayMultiplier 4 = 11/10 ∧
    getWeekdayMultiplier 0 = 1 ∧ getWeekdayMultiplier 1 = 1 ∧
    getWeekdayMultiplier 2 = 1 ∧ getWeekdayMultiplier 3 = 1 := by
  norm_num [getSeasonalMultiplier, getWeekdayMultiplier]

/-- C9: the trend multiplier is exactly `1 + 0.5 * (daysFromStart / totalDays)`,
is exactly 1 at the window start and 3/2 at the window end, and is monotone
non-decreasing over the window. -/
theorem trend_multiplier_formula (j k total : ℕ) (htot : 0 < total) (hjk : j ≤ k) :
    getTrendMultiplier k total = 1 + (1/2) * ((k : ℚ) / (total : ℚ)) ∧
    getTrendMultiplier 0 total = 1 ∧
    getTrendMultiplier total total = 3/2 ∧
    getTrendMultiplier j total ≤ getTrendMultiplier k total := by
  have h0 : ((total : ℚ)) ≠ 0 := (Nat.cast_pos.mpr htot).ne'
  have hdef : ∀ n : ℕ, getTrendMultiplier n total = 1 + ((n : ℚ) / (total : ℚ)) * (1/2) :=
    fun n => rfl
  refine ⟨by rw [hdef]; ring, ?_, ?_, ?_⟩
  · rw [hdef]
    simp
  · rw [hdef, div_self h0]
    norm_num
  · rw [hdef, hdef]
    have hc : ((j : ℚ)) ≤ (k : ℚ) := by exact_mod_cast hjk
    gcongr

/-- Witness for C9 at the source's 730-day window. -/
theorem trend_multiplier_formula_witness :
    getTrendMultiplier 730 730 = 1 + (1/2) * ((730 : ℚ) / (730 : ℚ)) ∧
    getTrendMultiplier 0 730 = 1 ∧
    getTrendMultiplier 730 730 = 3/2 ∧
    getTrendMultiplier 365 730 ≤ getTrendMultiplier 730 730 :=
  trend_multiplier_formula 365 730 730 (by norm_num) (by norm_num)

/-- C4 (amended): the daily sales count is
`max(1, int(base * seasonal * trend * weekday * noise))` where `int` is
Python truncation toward zero — not rounding — and the result is an integer
at least 1. -/
theorem daily_sales_count_truncated (base month dfs td wk : ℕ) (noise : ℚ)
    (htd : 0 < td) :
    generateDailySalesCount base month dfs td wk noise =
      (max 1 (pyTrunc ((base : ℚ) * getSeasonalMultiplier month *
        getTrendMultiplier dfs td * getWeekdayMultiplier wk * noise))).toNat ∧
    1 ≤ generateDailySalesCount base month dfs td wk noise := by
  refine ⟨rfl, ?_⟩
  simp only [generateDailySalesCount]
  exact one_le_toNat_max_one _

/-- Witness for C4's amended statement at a concrete in-range input. -/
theorem daily_sales_count_truncated_witness :
    generateDailySalesCount 5 12 0 730 0 1 =
      (max 1 (pyTrunc ((5 : ℚ) * getSeasonalMultiplier 12 *
        getTrendMultiplier 0 730 * getWeekdayMultiplier 0 * 1))).toNat ∧
    1 ≤ generateDailySalesCount 5 12 0 730 0 1 :=
  daily_sales_count_truncated 5 12 0 730 0 1 (by norm_num)

/-- Counterexample to C4 as stated: for `base = 5` (within 5–15) in December
(seasonal 1.5), at the window start (trend 1), on a Monday (weekday 1), with
noise 1 (within [0.8, 1.2]), the product is 7.5; the source truncates it to
7 while the claim's `round` yields 8. -/
theorem daily_sales_count_rounding_cex :
    generateDailySalesCount 5 12 0 730 0 1 = 7 ∧
    dailySalesCountSpecRound 5 12 0 730 0 1 = 8 := by
  constructor <;>
    (norm_num [generateDailySalesCount, dailySalesCountSpecRound,
      getSeasonalMultiplier, getTrendMultiplier, getWeekdayMultiplier,
      pyTrunc, roundHalfEven]
     decide)

/-- C7: `_ensure_product_metrics` never overwrites an already-set rating or
energy value, and a second call on the result of a first call is a no-op
(identical rating and energy, and no save). -/
theorem metric_backfill_write_once_idempotent (o o2 : MetricOracle) (p : ProductState) :
    (p.rating ≠ none → (ensureProductMetrics o p).1.rating = p.rating) ∧
    (p.energy ≠ none → (ensureProductMetrics o p).1.energy = p.energy) ∧
    ensureProductMetrics o2 (ensureProductMetrics o p).1 = ((ensureProductMetrics o p).1, false) := by
  unfold ensureProductMetrics
  rcases hr : p.rating with _ | r <;> rcases he : p.energy with _ | en <;>
    simp [hr, he]

/-- Witness for C7 on a product with both metrics already set. -/
theorem metric_backfill_write_once_witness :
    (ensureProductMetrics mOracle0 productRatedC7).1.rating = productRatedC7.rating ∧
    (ensureProductMetrics mOracle0 productRatedC7).1.energy = productRatedC7.energy ∧
    ensureProductMetrics mOracle0 (ensureProductMetrics mOracle0 productRatedC7).1 =
      ((ensureProductMetrics mOracle0 productRatedC7).1, false) :=
  ⟨(metric_backfill_write_once_idempotent mOracle0 mOracle0 productRatedC7).1
      (by simp [productRatedC7]),
   (metric_backfill_write_once_idempotent mOracle0 mOracle0 productRatedC7).2.1
      (by simp [productRatedC7]),
   (metric_backfill_write_once_idempotent mOracle0 mOracle0 productRatedC7).2.2⟩

/-- C10: `_ensure_product_metrics` touches at most `rating` and
`energy_kwh_per_year`; every other field is unchanged, and when both metrics
were already set the call returns the product untouched and performs no save. -/
theorem metric_backfill_frame (o : MetricOracle) (p : ProductState) :
    (ensureProductMetrics o p).1.productId = p.productId ∧
    (ensureProductMetrics o p).1.name = p.name ∧
    (ensureProductMetrics o p).1.price = p.price ∧
    (ensureProductMetrics o p).1.stock = p.stock ∧
    (ensureProductMetrics o p).1.categoryName = p.categoryName ∧
    (ensureProductMetrics o p).1.brand = p.brand ∧
    (ensureProductMetrics o p).1.warranty = p.warranty ∧
    (ensureProductMetrics o p).1.image = p.image ∧
    (ensureProductMetrics o p).1.description = p.description ∧
    (p.rating ≠ none ∧ p.energy ≠ none → ensureProductMetrics o p = (p, false)) := by
  unfold ensureProductMetrics
  rcases hr : p.rating with _ | r <;> rcases he : p.energy with _ | en <;>
    simp [hr, he]

theorem cumSums_getLast_cons (acc w : ℚ) (ws : List ℚ) :
    (cumSums acc (w :: ws)).getLast? = some (acc + (w :: ws).sum) := by
  induction ws generalizing acc w with
  | nil => simp [cumSums]
  | cons x xs ih =>
    have h1 : cumSums acc (w :: x :: xs) = (acc + w) :: cumSums (acc + w) (x :: xs) := rfl
    have h2 : cumSums (acc + w) (x :: xs) = (acc + w + x) :: cumSums (acc + w + x) xs := rfl
    rw [h1, h2, List.getLast?_cons_cons, ← h2, ih]
    simp only [List.sum_cons]
    ring_nf

/-- C6 (amended): when every popularity weight of the catalog totals to zero
(or less), the basket sampler fails — `random.choices` raises
`ValueError: Total of weights must be greater than zero` — rather than
falling back to uniform selection. -/
theorem zero_weight_sampling_raises (products : List ProductObj) (uSize : ℚ)
    (uPick uQty : ℕ → ℚ) (h : (products.map popWeight).sum ≤ 0) :
    generateOrderItems products uSize uPick uQty =
      .error ("Total of weights must be greater than zero") := by
  have h1 : ¬ ((((cumSums 0 [1/2, 3/10, 3/20, 1/20]).getLast?).getD 0 : ℚ) ≤ 0) := by
    norm_num [cumSums]
  have h2 : ((((cumSums 0 (products.map popWeight)).getLast?).getD 0 : ℚ) ≤ 0) := by
    cases hp : products.map popWeight with
    | nil => simp [cumSums]
    | cons w ws =>
      rw [cumSums_getLast_cons]
      rw [hp] at h
      simpa using h
  simp only [generateOrderItems, randomChoices, if_neg h1, if_pos h2]

/-- Witness for C6's amended statement on a concrete zero-weight catalog. -/
theorem zero_weight_sampling_raises_witness :
    generateOrderItems zeroWeightProducts (1/2) (fun _ => 1/2) (fun _ => 1/2) =
      .error ("Total of weights must be greater than zero") :=
  zero_weight_sampling_raises zeroWeightProducts (1/2) (fun _ => 1/2) (fun _ => 1/2)
    (by norm_num [zeroWeightProducts, popWeight])

/-- Counterexample to C6 as stated: on a catalog whose weights are all zero
the sampler raises instead of falling back to uniform selection. -/
theorem zero_weight_sampling_cex :
    generateOrderItems zeroWeightPair (1/2) (fun _ => 1/2) (fun _ => 1/2) =
      .error ("Total of weights must be greater than zero") ∧
    (zeroWeightPair.map popWeight).sum = 0 := by
  have h1 : ¬ ((((cumSums 0 [1/2, 3/10, 3/20, 1/20]).getLast?).getD 0 : ℚ) ≤ 0) := by
    norm_num [cumSums]
  have h2 : ((((cumSums 0 (zeroWeightPair.map popWeight)).getLast?).getD 0 : ℚ) ≤ 0) := by
    norm_num [zeroWeightPair, popWeight, cumSums]
  constructor
  · simp only [generateOrderItems, randomChoices, if_neg h1, if_pos h2]
  · norm_num [zeroWeightPair, popWeight]

/-! ### Structural lemmas about the batch writer -/

theorem processItem_frame (pk : ℕ) (st : GenSt) (it : ItemSpec) :
    (processItem pk st it).db.orders = st.db.orders ∧
    (processItem pk st it).db.nextPk = st.db.nextPk ∧
    (processItem pk st it).totalOrders = st.totalOrders ∧
    (processItem pk st it).totalRevenue = st.totalRevenue ∧
    (processItem pk st it).db.items =
      st.db.items ++
        (if it.createFails then [] else [⟨pk, it.productId, it.quantity, it.price⟩]) := by
  rcases it with ⟨pid, q, pr, cf, sf⟩
  cases cf
  · cases h : lookupStock st.memStock pid
    · simp [processItem, h]
    · cases sf <;> simp [processItem, h] <;> split <;> simp
  · simp [processItem]

theorem foldItems_frame (pk : ℕ) (l : List ItemSpec) (st : GenSt) :
    ((l.foldl (processItem pk) st).db.orders = st.db.orders) ∧
    ((l.foldl (processItem pk) st).db.nextPk = st.db.nextPk) ∧
    ((l.foldl (processItem pk) st).totalOrders = st.totalOrders) ∧
    ((l.foldl (processItem pk) st).totalRevenue = st.totalRevenue) ∧
    ((l.foldl (processItem pk) st).db.items = st.db.items ++ itemRecsOf pk l) := by
  induction l generalizing st with
  | nil => simp [itemRecsOf]
  | cons it l ih =>
    obtain ⟨h1, h2, h3, h4, h5⟩ := processItem_frame pk st it
    obtain ⟨g1, g2, g3, g4, g5⟩ := ih (processItem pk st it)
    simp only [List.foldl_cons]
    refine ⟨g1.trans h1, g2.trans h2, g3.trans h3, g4.trans h4, ?_⟩
    rw [g5, h5]
    cases hc : it.createFails <;>
      simp [itemRecsOf, List.filter_cons, hc, List.append_assoc]

theorem map_update_id (pk d : ℕ) (l : List OrderRec)
    (h : ∀ r ∈ l, r.pk ≠ pk) :
    (l.map fun r => if r.pk = pk then { r with createdAt := d } else r) = l := by
  induction l with
  | nil => rfl
  | cons r l ih =>
    have hr : r.pk ≠ pk := h r (List.mem_cons_self r l)
    simp only [List.map_cons, if_neg hr]
    rw [ih fun x hx => h x (List.mem_cons_of_mem r hx)]

theorem processOrderOk_skip (st : GenSt) (o : OrderSpec) (h : o.headerFails = true) :
    processOrderOk st o = st := by
  simp [processOrderOk, h]

theorem processOrderOk_char (st : GenSt) (o : OrderSpec) (h : o.headerFails = false)
    (hpk : ∀ r ∈ st.db.orders, r.pk < st.db.nextPk) :
    (processOrderOk st o).db.orders = st.db.orders ++ [headerRec st.db.nextPk o] ∧
    (processOrderOk st o).db.nextPk = st.db.nextPk + 1 ∧
    (processOrderOk st o).db.items = st.db.items ++ itemRecsOf st.db.nextPk o.items ∧
    (processOrderOk st o).totalOrders = st.totalOrders + 1 ∧
    (processOrderOk st o).totalRevenue = st.totalRevenue + orderTotal o.items := by
  have hne : ∀ r ∈ st.db.orders, r.pk ≠ st.db.nextPk := fun r hr => (hpk r hr).ne
  simp only [processOrderOk, h, Bool.false_eq_true, if_false]
  refine ⟨?_, ?_, ?_, ?_, ?_⟩
  · rw [(foldItems_frame _ _ _).1]
    dsimp only
    rw [List.map_append, map_update_id _ _ _ hne]
    simp [headerRec]
  · rw [(foldItems_frame _ _ _).2.1]
  · rw [(foldItems_frame _ _ _).2.2.2.2]
  · rw [(foldItems_frame _ _ _).2.2.1]
  · rw [(foldItems_frame _ _ _).2.2.2.1]

theorem except_bind_ok {α β : Type} (a : α) (f : α → Except String β) :
    (Except.ok a >>= f) = f a := rfl

theorem except_bind_err {α β : Type} (e : String) (f : α → Except String β) :
    ((Except.error e : Except String α) >>= f) = .error e := rfl

theorem processOrder_eq_ok (st : GenSt) (o : OrderSpec) (h : orderAborts o = false) :
    processOrder st o = .ok (processOrderOk st o) := by
  cases ho : o.headerFails
  · have hu : o.updateFails = false := by
      unfold orderAborts at h
      rw [ho] at h
      simpa using h
    simp [processOrder, processOrderOk, ho, hu]
  · simp [processOrder, processOrderOk, ho]

theorem processOrder_abort (st : GenSt) (o : OrderSpec) (h : orderAborts o = true) :
    processOrder st o = .error ("ERROR updating order timestamps") := by
  have hh : o.headerFails = false ∧ o.updateFails = true := by
    simpa [orderAborts] using h
  simp [processOrder, hh.1, hh.2]

theorem processDay_ok (day : List OrderSpec) (h : ∀ o ∈ day, orderAborts o = false)
    (st : GenSt) : processDay st day = .ok (day.foldl processOrderOk st) := by
  induction day generalizing st with
  | nil => rfl
  | cons o os ih =>
    rw [processDay, List.foldlM_cons, processOrder_eq_ok st o (h o (List.mem_cons_self o os)),
      except_bind_ok, List.foldl_cons]
    exact ih (fun x hx => h x (List.mem_cons_of_mem o hx)) (processOrderOk st o)

theorem processDay_abort (day : List OrderSpec) (h : day.any orderAborts = true)
    (st : GenSt) : ∃ e, processDay st day = .error e := by
  induction day generalizing st with
  | nil => simp at h
  | cons o os ih =>
    cases ho : orderAborts o
    · have hos : os.any orderAborts = true := by
        simpa [List.any_cons, ho] using h
      rw [processDay, List.foldlM_cons, processOrder_eq_ok st o ho, except_bind_ok]
      exact ih hos (processOrderOk st o)
    · refine ⟨"ERROR updating order timestamps", ?_⟩
      rw [processDay, List.foldlM_cons, processOrder_abort st o ho, except_bind_err]

theorem runDays_ok (specs : List (List OrderSpec)) (h : runAborts specs = false)
    (st : GenSt) : runDays st specs = .ok (runDaysOk st specs) := by
  induction specs generalizing st with
  | nil => rfl
  | cons day rest ih =>
    have h' : day.any orderAborts = false ∧ runAborts rest = false := by
      simpa [runAborts, List.any_cons] using h
    have hday : ∀ o ∈ day, orderAborts o = false := by
      intro o ho
      rcases List.any_eq_false.mp h'.1 o ho with hfalse
      simpa using hfalse
    rw [runDays, List.foldlM_cons, processDay_ok day hday st, except_bind_ok]
    exact ih h'.2 (day.foldl processOrderOk st)

theorem runDays_abort (specs : List (List OrderSpec)) (h : runAborts specs = true)
    (st : GenSt) : ∃ e, runDays st specs = .error e := by
  induction specs generalizing st with
  | nil => simp [runAborts] at h
  | cons day rest ih =>
    cases hday : day.any orderAborts
    · have hrest : runAborts rest = true := by
        simpa [runAborts, List.any_cons, hday] using h
      have hall : ∀ o ∈ day, orderAborts o = false := by
        intro o ho
        rcases List.any_eq_false.mp hday o ho with hfalse
        simpa using hfalse
      rw [runDays, List.foldlM_cons, processDay_ok day hall st, except_bind_ok]
      exact ih hrest (day.foldl processOrderOk st)
    · obtain ⟨e, he⟩ := processDay_abort day hday st
      refine ⟨e, ?_⟩
      rw [runDays, List.foldlM_cons, he, except_bind_err]

theorem runDaysOk_flat (specs : List (List OrderSpec)) (st : GenSt) :
    runDaysOk st specs = specs.flatten.foldl processOrderOk st := by
  induction specs generalizing st with
  | nil => rfl
  | cons day rest ih =>
    rw [runDaysOk, List.foldl_cons, List.flatten_cons, List.foldl_append]
    exact ih (day.foldl processOrderOk st)

/-- Witness for C10 on a fully populated product. -/
theorem metric_backfill_frame_witness :
    (ensureProductMetrics mOracle0 productRatedC10).1.productId = productRatedC10.productId ∧
    ensureProductMetrics mOracle0 productRatedC10 = (productRatedC10, false) :=
  ⟨(metric_backfill_frame mOracle0 productRatedC10).1,
   (metric_backfill_frame mOracle0 productRatedC10).2.2.2.2.2.2.2.2.2
      (by simp [productRatedC10])⟩

theorem processOrderOk_len (st : GenSt) (o : OrderSpec) :
    (processOrderOk st o).db.orders.length =
      st.db.orders.length + (if o.headerFails then 0 else 1) := by
  cases ho : o.headerFails
  · simp only [processOrderOk, ho, Bool.false_eq_true, if_false]
    rw [(foldItems_frame _ _ _).1]
    dsimp only
    rw [List.length_map, List.length_append]
    simp
  · simp [processOrderOk_skip st o ho, ho]

theorem foldOrders_len (os : List OrderSpec) (st : GenSt) :
    (os.foldl processOrderOk st).db.orders.length =
      st.db.orders.length + (os.filter fun o => !o.headerFails).length := by
  induction os generalizing st with
  | nil => simp
  | cons o os ih =>
    rw [List.foldl_cons, ih (processOrderOk st o), processOrderOk_len st o,
      List.filter_cons]
    cases ho : o.headerFails <;> (simp [ho]; try omega)

/-- C1 (amended): every caught failure — a header create raising under its
savepoint — only skips that one order, and a run containing only such
failures commits one order per surviving header; but `generate_demo_data` is
decorated `@transaction.atomic`, so a single uncaught failure (the
unprotected timestamp update) aborts the run and rolls back every prior
day's and order's work. -/
theorem generation_fault_isolation (w : SimWindow) (db0 : DB) (pc cc : ℕ)
    (specs : List (List OrderSpec)) :
    (runAborts specs = false →
      (generateDemoData false w db0 pc cc specs).2.toOption ≠ none ∧
      (generateDemoData false w db0 pc cc specs).1.orders.length =
        db0.orders.length + countGoodOrders specs) ∧
    (runAborts specs = true →
      (generateDemoData false w db0 pc cc specs).1 = db0 ∧
      (generateDemoData false w db0 pc cc specs).2.toOption = none) := by
  constructor
  · intro h
    have hrun := runDays_ok specs h ⟨db0, db0.stock, 0, 0⟩
    unfold generateDemoData
    simp only [Bool.false_eq_true, if_false, hrun]
    constructor
    · simp [Except.toOption]
    · rw [runDaysOk_flat, foldOrders_len]
      rfl
  · intro h
    obtain ⟨e, he⟩ := runDays_abort specs h ⟨db0, db0.stock, 0, 0⟩
    unfold generateDemoData
    simp only [Bool.false_eq_true, if_false, he]
    simp [Except.toOption]

/-- Witness for C1's amended statement: a run whose only failure is a caught
header failure persists exactly the surviving order; a run with an uncaught
update failure returns the database unchanged. -/
theorem generation_fault_isolation_witness :
    ((generateDemoData false w0 (emptyDB []) 15 16 specsOkC1).2.toOption ≠ none ∧
     (generateDemoData false w0 (emptyDB []) 15 16 specsOkC1).1.orders.length =
       (emptyDB ([] : StockMap)).orders.length + countGoodOrders specsOkC1) ∧
    ((generateDemoData false w0 (emptyDB []) 15 16 specsAbortC1).1 = emptyDB [] ∧
     (generateDemoData false w0 (emptyDB []) 15 16 specsAbortC1).2.toOption = none) :=
  ⟨(generation_fault_isolation w0 (emptyDB []) 15 16 specsOkC1).1 (by decide),
   (generation_fault_isolation w0 (emptyDB []) 15 16 specsAbortC1).2 (by decide)⟩

/-- Counterexample to C1 as stated: the run of `specsCexC1` persists zero
orders — the single uncaught failure on day 2 discarded day 1's fully
successful order (which a run of day 1 alone does persist) — because the
whole generation loop sits inside one top-level atomic scope. -/
theorem generation_toplevel_atomic_cex :
    (generateDemoData false w0 (emptyDB [(1, 10)]) 15 16 specsCexC1).1.orders.length = 0 ∧
    (generateDemoData false w0 (emptyDB [(1, 10)]) 15 16 specsDay1C1).1.orders.length = 1 ∧
    (specsCexC1.flatten.map fun o => o.headerFails) = [false, false] ∧
    (specsCexC1.flatten.map fun o => o.updateFails) = [false, true] := by
  refine ⟨?_, ?_, by decide, by decide⟩ <;> decide

theorem itemsSumFor_append (l1 l2 : List ItemRec) (pk : ℕ) :
    itemsSumFor (l1 ++ l2) pk = itemsSumFor l1 pk + itemsSumFor l2 pk := by
  simp [itemsSumFor, List.filter_append]

theorem itemsSumFor_ne (l : List ItemRec) (pk : ℕ)
    (h : ∀ it ∈ l, it.orderPk ≠ pk) : itemsSumFor l pk = 0 := by
  unfold itemsSumFor
  rw [List.filter_eq_nil_iff.mpr]
  · rfl
  · intro it hit
    simpa using h it hit

theorem itemRecsOf_mem_pk (pk : ℕ) (l : List ItemSpec) :
    ∀ it ∈ itemRecsOf pk l, it.orderPk = pk := by
  intro it hit
  unfold itemRecsOf at hit
  obtain ⟨a, _, rfl⟩ := List.mem_map.mp hit
  rfl

theorem itemsSumFor_own (pk : ℕ) (l : List ItemSpec)
    (h : ∀ it ∈ l, it.createFails = false) :
    itemsSumFor (itemRecsOf pk l) pk = orderTotal l := by
  unfold itemsSumFor itemRecsOf orderTotal
  rw [List.filter_eq_self.mpr, List.filter_eq_self.mpr, List.map_map]
  · rfl
  · intro a ha
    simp [h a ha]
  · intro a ha
    obtain ⟨b, _, rfl⟩ := List.mem_map.mp ha
    simp

theorem C2Inv_step (st : GenSt) (o : OrderSpec) (h : C2Inv st)
    (hit : ∀ it ∈ o.items, it.createFails = false) :
    C2Inv (processOrderOk st o) := by
  cases ho : o.headerFails
  · obtain ⟨c1, c2, c3, c4, c5⟩ := processOrderOk_char st o ho h.1
    refine ⟨?_, ?_, ?_⟩
    · intro r hr
      rw [c1] at hr
      rw [c2]
      rcases List.mem_append.mp hr with h1 | h2
      · exact (h.1 r h1).trans (Nat.lt_succ_self _)
      · rw [List.mem_singleton.mp h2]
        simp [headerRec]
    · intro it hit2
      rw [c3] at hit2
      rw [c2]
      rcases List.mem_append.mp hit2 with h1 | h2
      · exact (h.2.1 it h1).trans (Nat.lt_succ_self _)
      · rw [itemRecsOf_mem_pk _ _ it h2]
        exact Nat.lt_succ_self _
    · intro r hr
      rw [c1] at hr
      rw [c3, itemsSumFor_append]
      rcases List.mem_append.mp hr with h1 | h2
      · rw [itemsSumFor_ne (itemRecsOf st.db.nextPk o.items) r.pk
          (fun it hmem => by
            rw [itemRecsOf_mem_pk _ _ it hmem]
            exact (h.1 r h1).ne' )]
        rw [h.2.2 r h1]
        ring
      · rw [List.mem_singleton.mp h2]
        simp only [headerRec]
        rw [itemsSumFor_ne st.db.items st.db.nextPk (fun it hmem => (h.2.1 it hmem).ne),
          itemsSumFor_own _ _ hit]
        ring
  · rw [processOrderOk_skip st o ho]
    exact h

theorem C2Inv_fold (os : List OrderSpec) (st : GenSt) (h : C2Inv st)
    (hall : ∀ o ∈ os, ∀ it ∈ o.items, it.createFails = false) :
    C2Inv (os.foldl processOrderOk st) := by
  induction os generalizing st with
  | nil => exact h
  | cons o os ih =>
    rw [List.foldl_cons]
    exact ih (processOrderOk st o)
      (C2Inv_step st o h (hall o (List.mem_cons_self o os)))
      (fun x hx => hall x (List.mem_cons_of_mem o hx))

/-- C2 (amended): for every persisted transaction, the stored total equals
the exact decimal sum over the *sampled* basket; this coincides with the sum
over the *persisted* line items exactly when every line creation of that
basket succeeds — so here, under the hypothesis that no line creation fails,
every persisted order's stored total equals the sum of its persisted items. -/
theorem order_totals_match_items (w : SimWindow) (stock0 : StockMap) (pc cc : ℕ)
    (specs : List (List OrderSpec))
    (hitems : ∀ day ∈ specs, ∀ o ∈ day, ∀ it ∈ o.items, it.createFails = false) :
    ∀ r ∈ (generateDemoData false w (emptyDB stock0) pc cc specs).1.orders,
      r.totalPrice =
        itemsSumFor (generateDemoData false w (emptyDB stock0) pc cc specs).1.items r.pk := by
  cases hab : runAborts specs
  · have hrun := runDays_ok specs hab ⟨emptyDB stock0, (emptyDB stock0).stock, 0, 0⟩
    unfold generateDemoData
    simp only [Bool.false_eq_true, if_false, hrun]
    have hinv : C2Inv (runDaysOk ⟨emptyDB stock0, (emptyDB stock0).stock, 0, 0⟩ specs) := by
      rw [runDaysOk_flat]
      refine C2Inv_fold _ _ ⟨?_, ?_, ?_⟩ ?_
      · intro r hr
        simp [emptyDB] at hr
      · intro it hit
        simp [emptyDB] at hit
      · intro r hr
        simp [emptyDB] at hr
      · intro o ho
        obtain ⟨day, hday, hmem⟩ := List.mem_flatten.mp ho
        exact hitems day hday o hmem
    exact hinv.2.2
  · obtain ⟨e, he⟩ := runDays_abort specs hab ⟨emptyDB stock0, (emptyDB stock0).stock, 0, 0⟩
    unfold generateDemoData
    simp only [Bool.false_eq_true, if_false, he]
    intro r hr
    simp [emptyDB] at hr

/-- Witness for C2's amended statement: in a fully successful run the single
persisted order's stored total (10 = 2 × 5) equals the sum over its persisted
line items. -/
theorem order_totals_match_items_witness :
    (⟨0, 0, 10, "COMPLETED", 9⟩ : OrderRec).totalPrice =
      itemsSumFor (generateDemoData false w0 (emptyDB []) 1 1 specsOkC2).1.items
        (⟨0, 0, 10, "COMPLETED", 9⟩ : OrderRec).pk := by
  have hmem : (⟨0, 0, 10, "COMPLETED", 9⟩ : OrderRec) ∈
      (generateDemoData false w0 (emptyDB []) 1 1 specsOkC2).1.orders := by
    norm_num [generateDemoData, runDays, processDay, processOrder, processItem,
      List.foldlM_cons, List.foldlM_nil, specsOkC2, emptyDB, w0, orderTotal,
      lookupStock, except_bind_ok, pure, Except.pure]
  exact order_totals_match_items w0 [] 1 1 specsOkC2 (by decide) _ hmem

/-- Counterexample to C2 as stated: with a two-line basket whose second line
creation fails, the stored total is 17 (= 1×10 + 1×7, over the sampled
basket) while the persisted line items sum to 10 — the stored total is not
recomputed when a line is skipped. -/
theorem order_total_includes_failed_lines_cex :
    (generateDemoData false w0 (emptyDB []) 1 1 specsCexC2).1.orders =
      [⟨0, 0, 17, "COMPLETED", 9⟩] ∧
    (generateDemoData false w0 (emptyDB []) 1 1 specsCexC2).1.items =
      [⟨0, 1, 1, 10⟩] ∧
    itemsSumFor [(⟨0, 1, 1, 10⟩ : ItemRec)] 0 = 10 ∧
    (17 : ℚ) ≠ 10 := by
  refine ⟨?_, ?_, ?_, by norm_num⟩
  · norm_num [generateDemoData, runDays, processDay, processOrder, processItem,
      List.foldlM_cons, List.foldlM_nil, specsCexC2, emptyDB, w0, orderTotal,
      lookupStock, except_bind_ok, pure, Except.pure]
  · norm_num [generateDemoData, runDays, processDay, processOrder, processItem,
      List.foldlM_cons, List.foldlM_nil, specsCexC2, emptyDB, w0, orderTotal,
      lookupStock, except_bind_ok, pure, Except.pure]
  · norm_num [itemsSumFor]

theorem lookupStock_setStock (m : StockMap) (pid : ℕ) (v : ℤ) :
    lookupStock (setStock m pid v) pid = (lookupStock m pid).map (fun _ => v) := by
  induction m with
  | nil => rfl
  | cons e m ih =>
    by_cases h : e.1 = pid
    · simp [setStock, lookupStock, h]
    · simp [setStock, lookupStock, h, ih]

theorem lookupStock_setStock_ne (m : StockMap) (q pid : ℕ) (v : ℤ) (h : q ≠ pid) :
    lookupStock (setStock m q v) pid = lookupStock m pid := by
  have h2 : pid ≠ q := Ne.symm h
  induction m with
  | nil => rfl
  | cons e m ih =>
    by_cases he : e.1 = q
    · have hne : e.1 ≠ pid := by rw [he]; exact h
      simp [setStock, lookupStock, he, hne, h, h2, ih]
    · by_cases hp : e.1 = pid
      · simp [setStock, lookupStock, he, hp, h, h2, ih]
      · simp [setStock, lookupStock, he, hp, ih]

theorem processItem_stock (pk : ℕ) (st : GenSt) (it : ItemSpec) (pid : ℕ)
    (hsf : it.stockSaveFails = false) (hme : st.memStock = st.db.stock) :
    (processItem pk st it).memStock = (processItem pk st it).db.stock ∧
    lookupStock (processItem pk st it).db.stock pid =
      (if it.createFails = false ∧ it.productId = pid then
        (lookupStock st.db.stock pid).map (fun s => stockStep s it.quantity)
       else lookupStock st.db.stock pid) := by
  rcases it with ⟨pid2, q, pr, cf, sf⟩
  dsimp only at hsf
  subst hsf
  cases cf
  · cases hl : lookupStock st.memStock pid2
    · have hl2 : lookupStock st.db.stock pid2 = none := hme ▸ hl
      refine ⟨by simp [processItem, hl, hl2, hme], ?_⟩
      by_cases hp : pid2 = pid
      · subst hp
        simp [processItem, hl, hl2, hme]
      · simp [processItem, hl, hl2, hme, hp]
    · rename_i s
      have hl2 : lookupStock st.db.stock pid2 = some s := hme ▸ hl
      by_cases hg : (q : ℤ) ≤ s
      · have hmax : max 0 (s - (q : ℤ)) = s - q := by omega
        refine ⟨?_, ?_⟩
        · simp [processItem, hl, hl2, hg, hme]
        · by_cases hp : pid2 = pid
          · subst hp
            simp [processItem, hl, hl2, hg, hme, lookupStock_setStock, stockStep, hmax]
          · simp [processItem, hl, hl2, hg, hme,
              lookupStock_setStock_ne _ _ _ _ hp, hp]
      · refine ⟨by simp [processItem, hl, hl2, hg, hme], ?_⟩
        by_cases hp : pid2 = pid
        · subst hp
          simp [processItem, hl, hl2, hg, stockStep, hme]
        · simp [processItem, hl, hl2, hg, hme, hp]
  · exact ⟨by simp [processItem, hme], by simp [processItem]⟩

theorem foldItems_stock (pk : ℕ) (l : List ItemSpec) (pid : ℕ)
    (hsf : ∀ it ∈ l, it.stockSaveFails = false) (st : GenSt)
    (hme : st.memStock = st.db.stock) :
    (l.foldl (processItem pk) st).memStock = (l.foldl (processItem pk) st).db.stock ∧
    lookupStock (l.foldl (processItem pk) st).db.stock pid =
      (lookupStock st.db.stock pid).map
        (fun s => (soldOfItems l pid).foldl stockStep s) := by
  induction l generalizing st with
  | nil =>
    refine ⟨hme, ?_⟩
    simp [soldOfItems]
  | cons it l ih =>
    obtain ⟨h1, h2⟩ := processItem_stock pk st it pid (hsf it (List.mem_cons_self it l)) hme
    obtain ⟨g1, g2⟩ := ih (fun x hx => hsf x (List.mem_cons_of_mem it hx)) (processItem pk st it) h1
    refine ⟨by rw [List.foldl_cons]; exact g1, ?_⟩
    rw [List.foldl_cons, g2, h2]
    by_cases hc : it.createFails = false ∧ it.productId = pid
    · rw [if_pos hc, Option.map_map]
      have hsold : soldOfItems (it :: l) pid = it.quantity :: soldOfItems l pid := by
        simp [soldOfItems, List.filter_cons, hc.1, hc.2]
      rw [hsold]
      cases lookupStock st.db.stock pid <;> simp
    · rw [if_neg hc]
      have hsold : soldOfItems (it :: l) pid = soldOfItems l pid := by
        rcases Decidable.not_and_iff_or_not.mp hc with h | h
        · have : it.createFails = true := by
            cases hcf : it.createFails
            · exact absurd hcf h
            · rfl
          simp [soldOfItems, List.filter_cons, this]
        · cases hcf : it.createFails <;>
            simp [soldOfItems, List.filter_cons, hcf, h]
      rw [hsold]

theorem processOrderOk_stock (st : GenSt) (o : OrderSpec) (pid : ℕ)
    (hsf : ∀ it ∈ o.items, it.stockSaveFails = false) (hme : st.memStock = st.db.stock) :
    (processOrderOk st o).memStock = (processOrderOk st o).db.stock ∧
    lookupStock (processOrderOk st o).db.stock pid =
      (lookupStock st.db.stock pid).map
        (fun s => (if o.headerFails then [] else soldOfItems o.items pid).foldl stockStep s) := by
  cases ho : o.headerFails
  · simp only [processOrderOk, ho, Bool.false_eq_true, if_false]
    have key := foldItems_stock st.db.nextPk o.items pid hsf
      (⟨⟨(st.db.orders ++
            [(⟨st.db.nextPk, o.customerId, orderTotal o.items, "COMPLETED", 0⟩ : OrderRec)]).map
              (fun r : OrderRec =>
                if r.pk = st.db.nextPk then { r with createdAt := o.orderDate } else r),
          st.db.items, st.db.stock, st.db.nextPk + 1⟩,
         st.memStock, st.totalOrders, st.totalRevenue⟩ : GenSt) hme
    exact ⟨key.1, key.2⟩
  · rw [processOrderOk_skip st o ho]
    refine ⟨hme, ?_⟩
    simp [ho]

theorem foldOrders_stock (os : List OrderSpec) (pid : ℕ)
    (hsf : ∀ o ∈ os, ∀ it ∈ o.items, it.stockSaveFails = false) (st : GenSt)
    (hme : st.memStock = st.db.stock) :
    (os.foldl processOrderOk st).memStock = (os.foldl processOrderOk st).db.stock ∧
    lookupStock (os.foldl processOrderOk st).db.stock pid =
      (lookupStock st.db.stock pid).map
        (fun s =>
          ((os.filter fun o => !o.headerFails).flatMap fun o => soldOfItems o.items pid).foldl
            stockStep s) := by
  induction os generalizing st with
  | nil =>
    refine ⟨hme, ?_⟩
    simp
  | cons o os ih =>
    obtain ⟨h1, h2⟩ := processOrderOk_stock st o pid (hsf o (List.mem_cons_self o os)) hme
    obtain ⟨g1, g2⟩ := ih (fun x hx => hsf x (List.mem_cons_of_mem o hx)) (processOrderOk st o) h1
    refine ⟨by rw [List.foldl_cons]; exact g1, ?_⟩
    rw [List.foldl_cons, g2, h2, Option.map_map]
    cases ho : o.headerFails
    · have hfil : ((o :: os).filter fun x => !x.headerFails) =
        o :: (os.filter fun x => !x.headerFails) := by
        simp [List.filter_cons, ho]
      rw [hfil, List.flatMap_cons]
      simp only [ho, if_false, Bool.false_eq_true]
      cases lookupStock st.db.stock pid <;> simp [List.foldl_append]
    · have hfil : ((o :: os).filter fun x => !x.headerFails) =
        os.filter fun x => !x.headerFails := by
        simp [List.filter_cons, ho]
      rw [hfil]
      simp only [ho, if_true]
      cases lookupStock st.db.stock pid <;> simp

theorem foldl_stockStep_nonneg (l : List ℕ) (s : ℤ) (h : 0 ≤ s) :
    0 ≤ l.foldl stockStep s := by
  induction l generalizing s with
  | nil => exact h
  | cons q l ih =>
    rw [List.foldl_cons]
    refine ih _ ?_
    unfold stockStep
    split <;> omega

/-- C3 (amended): the writer decrements a product's persisted stock by a
line's quantity only when the current stock is at least that quantity — the
`max(0, ...)` floor never engages and a line larger than the available stock
leaves it unchanged — so the final stock is the fold of these guarded
decrements over the successfully persisted lines, and it never goes negative. -/
theorem stock_guarded_decrement (w : SimWindow) (db0 : DB) (pc cc pid : ℕ) (s0 : ℤ)
    (specs : List (List OrderSpec))
    (hab : runAborts specs = false)
    (hsf : ∀ day ∈ specs, ∀ o ∈ day, ∀ it ∈ o.items, it.stockSaveFails = false)
    (hs0 : lookupStock db0.stock pid = some s0) :
    lookupStock (generateDemoData false w db0 pc cc specs).1.stock pid =
      some ((soldQuantities specs pid).foldl stockStep s0) ∧
    (0 ≤ s0 → 0 ≤ (soldQuantities specs pid).foldl stockStep s0) := by
  refine ⟨?_, foldl_stockStep_nonneg _ _⟩
  have hrun := runDays_ok specs hab ⟨db0, db0.stock, 0, 0⟩
  unfold generateDemoData
  simp only [Bool.false_eq_true, if_false, hrun]
  rw [runDaysOk_flat]
  have hsf2 : ∀ o ∈ specs.flatten, ∀ it ∈ o.items, it.stockSaveFails = false := by
    intro o ho
    obtain ⟨day, hday, hmem⟩ := List.mem_flatten.mp ho
    exact hsf day hday o hmem
  obtain ⟨h1, h2⟩ := foldOrders_stock specs.flatten pid hsf2 ⟨db0, db0.stock, 0, 0⟩ rfl
  rw [h2]
  dsimp only
  rw [hs0]
  rfl

/-- Witness for C3's amended statement: two persisted lines of quantities 2
and 1 against a product stocked at 10 leave the guarded-decrement fold value,
which stays non-negative. -/
theorem stock_guarded_decrement_witness :
    lookupStock (generateDemoData false w0 (emptyDB [(1, 10)]) 1 1 specsOkC3).1.stock 1 =
      some ((soldQuantities specsOkC3 1).foldl stockStep 10) ∧
    (0 ≤ (10 : ℤ) → 0 ≤ (soldQuantities specsOkC3 1).foldl stockStep 10) :=
  stock_guarded_decrement w0 (emptyDB [(1, 10)]) 1 1 1 10 specsOkC3
    (by decide) (by decide) (by decide)

/-- Counterexample to C3 as stated: a persisted line of quantity 3 against a
stock of 2 leaves the stock at 2 (the guard `p.stock >= quantity` fails, so
no decrement happens), while the claim's formula `max(0, 2 − 3)` demands 0. -/
theorem stock_floor_formula_cex :
    lookupStock (generateDemoData false w0 (emptyDB [(1, 2)]) 1 1 specsCexC3).1.stock 1 =
      some 2 ∧
    (generateDemoData false w0 (emptyDB [(1, 2)]) 1 1 specsCexC3).1.items.length = 1 ∧
    max 0 ((2 : ℤ) - 3) = 0 ∧
    some (2 : ℤ) ≠ some (max 0 ((2 : ℤ) - 3)) := by
  refine ⟨by decide, by decide, by decide, by decide⟩

theorem foldOrders_revenue (os : List OrderSpec) (st : GenSt)
    (hpk : ∀ r ∈ st.db.orders, r.pk < st.db.nextPk)
    (hrev : st.totalRevenue = ((st.db.orders.map fun r => r.totalPrice).sum)) :
    (os.foldl processOrderOk st).totalRevenue =
      (((os.foldl processOrderOk st).db.orders.map fun r => r.totalPrice).sum) := by
  induction os generalizing st with
  | nil => exact hrev
  | cons o os ih =>
    rw [List.foldl_cons]
    cases ho : o.headerFails
    · obtain ⟨c1, c2, c3, c4, c5⟩ := processOrderOk_char st o ho hpk
      refine ih (processOrderOk st o) ?_ ?_
      · intro r hr
        rw [c1] at hr
        rw [c2]
        rcases List.mem_append.mp hr with h1 | h2
        · exact (hpk r h1).trans (Nat.lt_succ_self _)
        · rw [List.mem_singleton.mp h2]
          simp [headerRec]
      · rw [c5, c1, hrev]
        simp [headerRec]
    · rw [processOrderOk_skip st o ho]
      exact ih st hpk hrev

theorem one_tenth_not_dyadic : ¬ IsDyadic ((1 : ℚ)/10) := by
  rintro ⟨m, k, hmk⟩
  have h1 : ((2 : ℚ)) ^ k = 10 * (m : ℚ) := by
    field_simp at hmk
    linarith
  have h3 : (2 : ℤ) ^ k = 10 * m := by exact_mod_cast h1
  have h5 : (5 : ℤ) ∣ 2 ^ k := ⟨2 * m, by linarith⟩
  have hp : Prime (5 : ℤ) := by norm_num
  have h52 := hp.dvd_of_dvd_pow h5
  norm_num at h52

/-- C5 (amended): the returned summary's `total_revenue` is
`float(total_revenue)` — the binary64 (dyadic) rounding of the exact decimal
sum of the persisted transaction totals, which equals that sum only when the
sum is exactly representable — and `start_date`/`end_date` are the ISO 8601
`%Y-%m-%d` renderings of the window bounds. -/
theorem summary_revenue_float (w : SimWindow) (stock0 : StockMap) (pc cc : ℕ)
    (specs : List (List OrderSpec)) (hab : runAborts specs = false) :
    ((generateDemoData false w (emptyDB stock0) pc cc specs).2.toOption.map
        fun s => s.totalRevenue) =
      some (pyFloat
        (((generateDemoData false w (emptyDB stock0) pc cc specs).1.orders.map
            fun r => r.totalPrice).sum)) ∧
    IsDyadic (pyFloat
      (((generateDemoData false w (emptyDB stock0) pc cc specs).1.orders.map
          fun r => r.totalPrice).sum)) ∧
    ((generateDemoData false w (emptyDB stock0) pc cc specs).2.toOption.map
        fun s => s.startDate) = some (formatISO w.startY w.startM w.startD) ∧
    ((generateDemoData false w (emptyDB stock0) pc cc specs).2.toOption.map
        fun s => s.endDate) = some (formatISO w.endY w.endM w.endD) := by
  have hrun := runDays_ok specs hab ⟨emptyDB stock0, (emptyDB stock0).stock, 0, 0⟩
  have hrev : (runDaysOk ⟨emptyDB stock0, (emptyDB stock0).stock, 0, 0⟩ specs).totalRevenue =
      (((runDaysOk ⟨emptyDB stock0, (emptyDB stock0).stock, 0, 0⟩ specs).db.orders.map
          fun r => r.totalPrice).sum) := by
    rw [runDaysOk_flat]
    refine foldOrders_revenue specs.flatten _ ?_ ?_
    · intro r hr
      simp [emptyDB] at hr
    · simp [emptyDB]
  unfold generateDemoData
  simp only [Bool.false_eq_true, if_false, hrun]
  refine ⟨?_, pyFloat_isDyadic _, ?_, ?_⟩
  · simp [Except.toOption, hrev]
  · simp [Except.toOption]
  · simp [Except.toOption]

/-- Witness for C5's amended statement on a concrete one-sale run. -/
theorem summary_revenue_float_witness :
    ((generateDemoData false w0 (emptyDB [(1, 5)]) 1 1 specsC5).2.toOption.map
        fun s => s.totalRevenue) =
      some (pyFloat
        (((generateDemoData false w0 (emptyDB [(1, 5)]) 1 1 specsC5).1.orders.map
            fun r => r.totalPrice).sum)) ∧
    IsDyadic (pyFloat
      (((generateDemoData false w0 (emptyDB [(1, 5)]) 1 1 specsC5).1.orders.map
          fun r => r.totalPrice).sum)) ∧
    ((generateDemoData false w0 (emptyDB [(1, 5)]) 1 1 specsC5).2.toOption.map
        fun s => s.startDate) = some (formatISO w0.startY w0.startM w0.startD) ∧
    ((generateDemoData false w0 (emptyDB [(1, 5)]) 1 1 specsC5).2.toOption.map
        fun s => s.endDate) = some (formatISO w0.endY w0.endM w0.endD) :=
  summary_revenue_float w0 [(1, 5)] 1 1 specsC5 (by decide)

/-- Counterexample to C5 as stated: a run whose exact revenue is the decimal
0.10 reports `float(Decimal('0.10'))`, a dyadic rational that cannot equal
1/10 — the reported `total_revenue` is not the exact decimal sum. -/
theorem summary_revenue_cex :
    (((generateDemoData false w0 (emptyDB [(1, 5)]) 1 1 specsC5).1.orders.map
        fun r => r.totalPrice).sum) = 1/10 ∧
    ((generateDemoData false w0 (emptyDB [(1, 5)]) 1 1 specsC5).2.toOption.map
        fun s => s.totalRevenue) ≠ some ((1 : ℚ)/10) := by
  have hrun := runDays_ok specsC5 (by decide) ⟨emptyDB [(1, 5)], (emptyDB [(1, 5)]).stock, 0, 0⟩
  have hrev : (runDaysOk ⟨emptyDB [(1, 5)], (emptyDB [(1, 5)]).stock, 0, 0⟩ specsC5).totalRevenue =
      1/10 := by
    norm_num [runDaysOk, processOrderOk, processItem, specsC5, emptyDB, orderTotal,
      lookupStock]
  constructor
  · unfold generateDemoData
    simp only [Bool.false_eq_true, if_false, hrun]
    norm_num [runDaysOk, processOrderOk, processItem, specsC5, emptyDB, orderTotal,
      lookupStock]
  · unfold generateDemoData
    simp only [Bool.false_eq_true, if_false, hrun]
    simp only [Except.toOption, Option.map_some]
    rw [hrev]
    intro hcon
    have heq : pyFloat ((1 : ℚ)/10) = 1/10 := by
      simpa using hcon
    have hd := pyFloat_isDyadic ((1 : ℚ)/10)
    rw [heq] at hd
    exact one_tenth_not_dyadic hd

end SalesGen
